import Mathlib

/-!
Shallow embedding of the crawl-and-publish pipeline of
`crawler/crawler/crawler.go` (the current, multi-seed / worker-pool
version of the file), together with theorems settling the frozen claims
about it.

Conventions of the embedding:
* Go strings are Lean `String`s; character-level operations work on
  `String.data : List Char`.
* Stateful/concurrent code is modelled by explicit state passing; a Go
  buffered channel with no concurrent receiver is a `List` buffer with a
  capacity check, and a send that would block forever makes the modelled
  function return `none`.
* External collaborators (HTTP client, publiccode parser, git clone,
  Elasticsearch client) are modelled as environment records supplying
  their outcomes; the embedded functions reproduce the control flow of
  the Go source around those outcomes.
-/

/-! ## Go standard-library string helpers used by the source -/

/-- `unicode.IsSpace`: the Unicode white-space code points recognised by
Go (`\t \n \v \f \r` space, NEL, NBSP and the `White_Space` code points
above Latin-1). -/
def goIsSpace (c : Char) : Bool :=
  c.toNat = 0x9 || c.toNat = 0xA || c.toNat = 0xB || c.toNat = 0xC ||
  c.toNat = 0xD || c.toNat = 0x20 || c.toNat = 0x85 || c.toNat = 0xA0 ||
  c.toNat = 0x1680 ||
  (0x2000 ≤ c.toNat && c.toNat ≤ 0x200A) ||
  c.toNat = 0x2028 || c.toNat = 0x2029 || c.toNat = 0x202F ||
  c.toNat = 0x205F || c.toNat = 0x3000

/-- `strings.TrimSpace`: drop white space from both ends of a string. -/
def goTrimSpace (s : String) : String :=
  ⟨(((s.data.dropWhile goIsSpace).reverse.dropWhile goIsSpace).reverse)⟩

/-- Pairwise case-folding comparison of two character lists; the character
fold is ASCII upper-to-lower case (Lean's `Char.toLower`), matching Go's
`strings.EqualFold` on the ASCII range (the only range the administration
codes use; non-ASCII code points are compared verbatim). -/
def eqFoldChars : List Char → List Char → Bool
  | [], [] => true
  | a :: as, b :: bs => (a.toLower == b.toLower) && eqFoldChars as bs
  | _, _ => false

/-- `strings.EqualFold` (restricted to ASCII case folding, see
`eqFoldChars`). -/
def goEqualFold (s t : String) : Bool :=
  eqFoldChars s.data t.data

/-- `strings.TrimRight`: remove the trailing characters of `s` that are
members of the character set `cutset` (a cutset trim, not a suffix
trim). -/
def goTrimRight (s cutset : String) : String :=
  ⟨(s.data.reverse.dropWhile (fun c => cutset.data.contains c)).reverse⟩

/-! ## Data model (`crawler.go`) -/

/-- `Domain`: one hosting provider, as far as this file consults it
(`Host`, token selection and basic auth are passed through to the
external publiccode parser). -/
structure Domain where
  Host : String := ""
  UseTokenFor : List String := []
  BasicAuth : List String := []
deriving DecidableEq

/-- `PA`: a publisher record; the fields this file reads. -/
structure PA where
  CodiceIPA : String := ""
  UnknownIPA : Bool := false
deriving DecidableEq

/-- `Repository`: a single candidate code repository (the unit of work
of the pipeline). -/
structure Repository where
  Name : String := ""
  Hostname : String := ""
  FileRawURL : String := ""
  GitCloneURL : String := ""
  GitBranch : String := ""
  Domain : Domain := {}
  Pa : PA := {}
  Headers : List (String × String) := []
  Metadata : String := ""
deriving DecidableEq

/-- The `it.riuso` section of a parsed publiccode manifest. -/
structure PCRiuso where
  CodiceIPA : String := ""
deriving DecidableEq

/-- The `it` section of a parsed publiccode manifest. -/
structure PCIt where
  Riuso : PCRiuso := {}
deriving DecidableEq

/-- A parsed publiccode manifest, as far as this file reads it. -/
structure PublicCode where
  It : PCIt := {}
deriving DecidableEq

/-- The state of the external publiccode parser after a successful
parse, as far as this file reads it. -/
structure PCParsed where
  PublicCode : PublicCode := {}
deriving DecidableEq

/-! ## Whitelist validation (`validateFile`, `validateRemoteFile`) -/

/-- `validateFile`: checks that the publisher's whitelist `CodiceIPA`
and the manifest's `it.riuso.codiceIPA` agree, by
`strings.EqualFold(strings.TrimSpace(...), strings.TrimSpace(...))`;
on mismatch it returns the error message built in the source. -/
def validateFile (pa : PA) (parsed : PCParsed) (fileRawURL : String) :
    Except String Unit :=
  if goEqualFold (goTrimSpace pa.CodiceIPA)
      (goTrimSpace parsed.PublicCode.It.Riuso.CodiceIPA) then
    Except.ok ()
  else
    Except.error ("codiceIPA for: " ++ fileRawURL ++ " is " ++
      parsed.PublicCode.It.Riuso.CodiceIPA ++
      ", which differs from the one assigned to the org in the whitelist: " ++
      pa.CodiceIPA)

/-- `validateRemoteFile`: `getRemoteFile` (the call into the external
parser, whose outcome is supplied as `parseResult`) followed by
`validateFile`. -/
def validateRemoteFile (pa : PA) (parseResult : Except String PCParsed)
    (fileRawURL : String) : Except String Unit :=
  match parseResult with
  | Except.error e => Except.error e
  | Except.ok p => validateFile pa p fileRawURL

/-- `getRemoteFile` line 726: the base URL handed to the parser is
`strings.TrimRight(fileRawURL, CRAWLED_FILENAME)`. -/
def remoteBaseURL (crawledFilename fileRawURL : String) : String :=
  goTrimRight fileRawURL crawledFilename

/-- The spec's description of the whitelist comparison: the two codes are
equal after whitespace trimming, case-insensitively (compared after
lowercasing every character). -/
def specWhitelistMatch (whitelistCode manifestCode : String) : Prop :=
  (goTrimSpace whitelistCode).data.map Char.toLower =
    (goTrimSpace manifestCode).data.map Char.toLower

instance (a b : String) : Decidable (specWhitelistMatch a b) := by
  unfold specWhitelistMatch; infer_instance

/-! ## Worker (`ProcessRepo`, `ProcessRepositories`) -/

/-- The outcome of `httpclient.GetURL` for a candidate's manifest URL:
`resp.Status.Code`, `resp.Body`, and whether a transport error was
returned. -/
structure FetchOutcome where
  code : Nat := 200
  body : String := ""
  transportErr : Bool := false
deriving DecidableEq

/-- Environment of one `ProcessRepo` call: the outcomes of its external
collaborators (manifest fetch and publiccode parse). Clone, activity and
index-store failures are logged by the source and never change its
control flow, so they do not appear here. -/
structure RepoEnv where
  fetch : FetchOutcome := {}
  parse : Except String PCParsed := Except.ok {}

/-- Observable trace of one `ProcessRepo` call: whether whitelist
validation was attempted, the URLs handed to the dead-letter logger
`logBadYamlToFile` (its caller passes only `repository.FileRawURL`),
and whether the clone, activity-computation and publish steps were
reached. -/
structure RepoTrace where
  validationAttempted : Bool
  deadLetter : List String
  cloneAttempted : Bool
  activityAttempted : Bool
  publishAttempted : Bool
deriving DecidableEq

/-- `ProcessRepo` (lines 662–713): fetch the manifest; on non-200 or
transport error stop silently; if `UnknownIPA` is set skip validation,
otherwise validate and on failure dead-letter the URL and stop;
then clone, compute activity and publish (their failures only log). -/
def ProcessRepo (r : Repository) (env : RepoEnv) : RepoTrace :=
  if env.fetch.code ≠ 200 ∨ env.fetch.transportErr then
    ⟨false, [], false, false, false⟩
  else if r.Pa.UnknownIPA then
    ⟨false, [], true, true, true⟩
  else
    match validateRemoteFile r.Pa env.parse r.FileRawURL with
    | Except.error _ => ⟨true, [r.FileRawURL], false, false, false⟩
    | Except.ok _ => ⟨true, [], true, true, true⟩

/-- `ProcessRepositories`: each worker processes the candidates it
receives one after the other; the loop has no early exit. -/
def ProcessRepositories (items : List (Repository × RepoEnv)) : List RepoTrace :=
  items.map (fun x => ProcessRepo x.1 x.2)

/-! ## Blacklist filter (`removeBlackListedFromRepositories`, lines 529–545) -/

/-- Capacity of the replacement channel created at line 530:
`temp := make(chan Repository, 1000)`. -/
def tempChannelCapacity : Nat := 1000

/-- Capacity of the intake channel created in `NewCrawler` at line 462:
`c.repositories = make(chan Repository, 1000)`. -/
def intakeChannelCapacity : Nat := 1000

/-- One Go buffered-channel send with no concurrent receiver: it blocks
exactly when the buffer already holds `capacity` items. -/
def chanSendBlocks (capacity pending : Nat) : Bool :=
  capacity ≤ pending

/-- The loop of `removeBlackListedFromRepositories`, draining the intake
list. `temp` is the buffer of the freshly created replacement channel
(most recent send first) and `removed` the accumulated removal ids (most
recent first); both are reversed when the loop completes. The replacement
channel has no concurrent receiver — it is a local variable until the
function returns — so a send into a full buffer blocks forever, which the
embedding renders as `none`. -/
def goFilterLoop (listed : String → Option String) :
    List Repository → List Repository → List String →
    Option (List String × List Repository)
  | [], temp, removed => some (removed.reverse, temp.reverse)
  | r :: rest, temp, removed =>
    match listed r.GitCloneURL with
    | some v => goFilterLoop listed rest temp (v :: removed)
    | none =>
      if temp.length < tempChannelCapacity then
        goFilterLoop listed rest (r :: temp) removed
      else
        none

/-- `removeBlackListedFromRepositories`: drain the intake, append the
mapped external id of each blacklisted candidate to the removal list,
forward every other candidate into the fresh capacity-1000 channel, and
return the removal list (the forwarded buffer becomes the new
`c.repositories`). `none` stands for the run that blocks forever. -/
def removeBlackListedFromRepositories (listed : String → Option String)
    (intake : List Repository) : Option (List String × List Repository) :=
  goFilterLoop listed intake [] []

/-! ## Organization pagination (`CrawlOrg`, lines 619–643) -/

/-- Outcome of one `processAndGetNextURL` call on a listing URL: the
candidates it pushed onto the intake, and either an error or the next
page URL (empty string meaning last page). -/
inductive PageStep where
  | err : List Repository → PageStep
  | ok : List Repository → String → PageStep

/-- How one seed URL's page loop ends. -/
inductive SeedOutcome where
  | completed : SeedOutcome
  | errored : SeedOutcome
  | spun : SeedOutcome
deriving DecidableEq

/-- `true` exactly on `SeedOutcome.errored`. -/
def SeedOutcome.isErrored : SeedOutcome → Bool
  | .errored => true
  | _ => false

/-- The inner `for` loop of `CrawlOrg` on one seed URL: follow next-page
URLs until `processAndGetNextURL` errors or returns an empty next URL,
collecting every candidate pushed along the way. `fuel` bounds the number
of page fetches; exhausting it (`spun`) models a page sequence the Go
loop would follow forever. -/
def paginateSeed (env : String → PageStep) : Nat → String →
    List Repository × SeedOutcome
  | 0, _ => ([], .spun)
  | fuel + 1, url =>
    match env url with
    | .err repos => (repos, .errored)
    | .ok repos next =>
      if next = "" then (repos, .completed)
      else
        let r := paginateSeed env fuel next
        (repos ++ r.1, r.2)

/-- `CrawlOrg`: iterate over the seed URLs from `generateAPIURLs`. On a
pagination error the labelled `continue ORG` moves on to the next seed;
on normal completion (empty next URL) the `return` statement exits the
whole function, abandoning the remaining seeds. Returns the candidates
pushed and the list of seeds actually processed. -/
def CrawlOrg (env : String → PageStep) (fuel : Nat) :
    List String → List Repository × List String
  | [] => ([], [])
  | s :: rest =>
    match paginateSeed env fuel s with
    | (repos, .errored) =>
      let r := CrawlOrg env fuel rest
      (repos ++ r.1, s :: r.2)
    | (repos, _) => (repos, [s])

/-- The elements of a list up to and including the first one satisfying
`p` (all of them when none does). -/
def takeUntilIncl (p : α → Bool) : List α → List α
  | [] => []
  | x :: xs => if p x then [x] else x :: takeUntilIncl p xs

/-! ## Finalization (`crawl`, lines 547–584) -/

/-- Outcomes of the finalization collaborators: `elastic.Flush` and the
two `elastic.AliasUpdate` calls (publishers index first, then the
publiccode index). -/
structure FinalizeEnv where
  flushErr : Option String := none
  publishersAliasErr : Option String := none
  publiccodeAliasErr : Option String := none

/-- The tail of `crawl` after the worker pool has drained: flush the
index (an error is only logged), then perform the two alias updates,
returning the first alias-update error wrapped as in the source, else
`none`. The staged documents are passed through untouched — nothing in
the finalization path deletes or rewrites them. -/
def crawlFinalize (env : FinalizeEnv) (staged : List (String × String)) :
    Option String × List (String × String) :=
  match env.publishersAliasErr with
  | some e => (some ("Error updating Elastic Alias: " ++ e), staged)
  | none =>
    match env.publiccodeAliasErr with
    | some e => (some ("Error updating Elastic Alias: " ++ e), staged)
    | none => (none, staged)

/-- `CrawlPublishers` returns `(toBeRemoved, c.crawl())`: the crawl's
overall result is exactly the finalization result. -/
def CrawlPublishersResult (toBeRemoved : List String) (env : FinalizeEnv)
    (staged : List (String × String)) :
    List String × Option String × List (String × String) :=
  (toBeRemoved, crawlFinalize env staged)

/-! ## Sample values used by witnesses and counterexamples -/

/-- A sample non-blacklisted candidate. -/
def sampleRepo : Repository := { Name := "r0", GitCloneURL := "git://h/r0" }

/-- Candidate `a`, blacklisted by `blacklistAB`. -/
def repoA : Repository := { Name := "a", GitCloneURL := "git://h/a" }

/-- Candidate `b`, not blacklisted by `blacklistAB`. -/
def repoB : Repository := { Name := "b", GitCloneURL := "git://h/b" }

/-- A blacklist mapping holding exactly `repoA`'s clone URL. -/
def blacklistAB : String → Option String :=
  fun u => if u = "git://h/a" then some "doc-42" else none

/-- The candidate the second pagination seed of `seedEnvTwo` would emit. -/
def repoR2 : Repository := { Name := "r2", GitCloneURL := "git://h/r2" }

/-- A pagination environment with seed `s1` completing normally on its
first page (no candidates, empty next URL) and every other seed — in
particular `s2` — completing normally with candidate `repoR2`. -/
def seedEnvTwo : String → PageStep :=
  fun url => if url = "s1" then PageStep.ok [] "" else PageStep.ok [repoR2] ""

/-- A publisher with the unknown-IPA flag set. -/
def paUnknown : PA := { CodiceIPA := "ABC123", UnknownIPA := true }

/-- A candidate owned by `paUnknown`. -/
def repoUnknown : Repository :=
  { Name := "u1", FileRawURL := "https://h/u1/publiccode.yml", Pa := paUnknown }

/-- An environment where the manifest fetch succeeds but the parsed
administration code matches no whitelist entry of its publisher. -/
def envMismatch : RepoEnv :=
  { fetch := { code := 200, body := "publiccode-yaml" },
    parse := Except.ok { PublicCode := { It := { Riuso := { CodiceIPA := "ZZZ999" } } } } }

/-- A publisher with the unknown-IPA flag unset. -/
def paStrict : PA := { CodiceIPA := "ABC123", UnknownIPA := false }

/-- A candidate owned by `paStrict` whose manifest will fail validation. -/
def repoBad : Repository :=
  { Name := "bad", FileRawURL := "https://h/bad/publiccode.yml", Pa := paStrict }

/-- An environment where the fetch succeeds but the manifest does not
parse. -/
def envBad : RepoEnv :=
  { fetch := { code := 200, body := "raw manifest content" },
    parse := Except.error "invalid publiccode" }

/-- A plain candidate with no special publisher. -/
def repoPlain : Repository :=
  { Name := "r2", FileRawURL := "https://h/r2/publiccode.yml" }

/-- An environment where the manifest fetch returns status 404. -/
def env404 : RepoEnv := { fetch := { code := 404 } }

/-! ## Helper lemmas -/

/-- `eqFoldChars` agrees with equality of the lowercased character
lists. -/
theorem eqFoldChars_eq_map : ∀ as bs : List Char,
    eqFoldChars as bs = true ↔ as.map Char.toLower = bs.map Char.toLower := by
  intro as
  induction as with
  | nil => intro bs; cases bs <;> simp [eqFoldChars]
  | cons a as ih =>
    intro bs
    cases bs with
    | nil => simp [eqFoldChars]
    | cons b bs => simp [eqFoldChars, ih]

/-- Full characterization of the blacklist-filter loop: starting from a
buffer `temp` within capacity, it returns the removal ids followed by
those of `rest` and the forwarded buffer extended by the non-blacklisted
part of `rest` — unless the non-blacklisted part overflows the capacity,
in which case the blocked send makes it return `none`. -/
theorem goFilterLoop_characterization (listed : String → Option String) :
    ∀ (rest temp : List Repository) (removed : List String),
      temp.length ≤ tempChannelCapacity →
      goFilterLoop listed rest temp removed =
        (if temp.length +
            (rest.filter (fun r => (listed r.GitCloneURL).isNone)).length ≤
            tempChannelCapacity
         then some (removed.reverse ++ rest.filterMap (fun r => listed r.GitCloneURL),
                    temp.reverse ++ rest.filter (fun r => (listed r.GitCloneURL).isNone))
         else none) := by
  intro rest
  induction rest with
  | nil =>
    intro temp removed h
    simp [goFilterLoop, h]
  | cons r rs ih =>
    intro temp removed h
    cases hl : listed r.GitCloneURL with
    | some v =>
      rw [show goFilterLoop listed (r :: rs) temp removed =
            goFilterLoop listed rs temp (v :: removed) from by
          simp [goFilterLoop, hl]]
      rw [ih temp (v :: removed) h]
      simp [List.filter_cons, List.filterMap_cons, hl]
    | none =>
      have hfc : List.filter (fun x => (listed x.GitCloneURL).isNone) (r :: rs)
          = r :: List.filter (fun x => (listed x.GitCloneURL).isNone) rs := by
        simp [List.filter_cons, hl]
      have hfm : List.filterMap (fun x => listed x.GitCloneURL) (r :: rs)
          = List.filterMap (fun x => listed x.GitCloneURL) rs := by
        simp [List.filterMap_cons, hl]
      by_cases hlt : temp.length < tempChannelCapacity
      · rw [show goFilterLoop listed (r :: rs) temp removed =
              goFilterLoop listed rs (r :: temp) removed from by
            simp [goFilterLoop, hl, hlt]]
        rw [ih (r :: temp) removed (by simpa using hlt)]
        rw [hfc, hfm]
        simp only [List.length_cons, List.reverse_cons, List.append_assoc,
          List.singleton_append]
        split_ifs with h1 h2 h2 <;> first | rfl | omega
      · rw [show goFilterLoop listed (r :: rs) temp removed = none from by
          simp [goFilterLoop, hl, hlt]]
        rw [hfc, if_neg]
        simp only [List.length_cons]
        omega

/-! ## Claims -/

/-- Claim C1, counterexample: a failing index flush is not surfaced as
the crawl's overall result — with the flush erroring and both alias
updates succeeding, `crawl` returns no error at all. -/
theorem crawl_flush_error_not_surfaced :
    (crawlFinalize { flushErr := some "disk full" } [("doc-1", "body-1")]).1 =
      none := rfl

/-- Claim C1, amended: an alias-swap failure during finalization is
surfaced to the top-level caller (`CrawlPublishers`/`CrawlRepo` return
`crawl`'s result) as the crawl's overall result, while a flush failure is
only logged and never surfaced; in every case the already-staged
publications are passed through untouched — never unwound or
discarded. -/
theorem crawl_finalization_error_surfacing :
    ∀ (env : FinalizeEnv) (staged : List (String × String))
      (toBeRemoved : List String),
      (crawlFinalize env staged).2 = staged ∧
      ((crawlFinalize env staged).1.isSome ↔
        (env.publishersAliasErr.isSome ∨ env.publiccodeAliasErr.isSome)) ∧
      CrawlPublishersResult toBeRemoved env staged =
        (toBeRemoved, crawlFinalize env staged) := by
  intro env staged toBeRemoved
  obtain ⟨f, p1, p2⟩ := env
  cases p1 <;> cases p2 <;> simp [crawlFinalize, CrawlPublishersResult]

/-- Claim C2, counterexample: seed `s1` completes normally (empty next
URL) and `CrawlOrg` then returns, so seed `s2` — whose pagination would
have emitted `repoR2` — is never processed: the normal completion of one
seed does prevent the remaining seeds from being processed. -/
theorem CrawlOrg_completion_skips_remaining_seeds :
    CrawlOrg seedEnvTwo 3 ["s1", "s2"] = ([], ["s1"]) ∧
    paginateSeed seedEnvTwo 3 "s2" = ([repoR2], SeedOutcome.completed) := by
  exact ⟨rfl, rfl⟩

/-- Claim C2, amended: the seeds of an organization are processed in
sequence up to and including the first seed whose pagination does not
error: an error while paginating one seed does not prevent the remaining
seeds from being processed, while the normal completion (empty next URL)
of one seed ends `CrawlOrg`, leaving the remaining seeds unprocessed; the
emitted candidates are exactly those of the processed seeds. -/
theorem CrawlOrg_seed_processing :
    ∀ (env : String → PageStep) (fuel : Nat) (seeds : List String),
      (CrawlOrg env fuel seeds).2 =
        takeUntilIncl (fun s => !(paginateSeed env fuel s).2.isErrored) seeds ∧
      (CrawlOrg env fuel seeds).1 =
        ((takeUntilIncl (fun s => !(paginateSeed env fuel s).2.isErrored) seeds).map
          (fun s => (paginateSeed env fuel s).1)).flatten := by
  intro env fuel seeds
  induction seeds with
  | nil => simp [CrawlOrg, takeUntilIncl]
  | cons s rest ih =>
    rcases h : paginateSeed env fuel s with ⟨repos, o⟩
    cases o <;>
      simp [CrawlOrg, takeUntilIncl, h, SeedOutcome.isErrored, ih]

/-- Claim C3, counterexample: an intake of 1001 non-blacklisted
candidates overflows the freshly created capacity-1000 replacement
channel; the blocked send never completes (`none`), so the candidates are
not all forwarded and no removal list is returned. -/
theorem removeBlackListed_overflow_blocks :
    removeBlackListedFromRepositories (fun _ => none)
      (List.replicate 1001 sampleRepo) = none := by
  unfold removeBlackListedFromRepositories
  rw [goFilterLoop_characterization (fun _ => none) _ [] []
    (by simp [tempChannelCapacity])]
  have hf : List.filter
      (fun r => (((fun (_ : String) => (none : Option String)) r.GitCloneURL)).isNone)
      (List.replicate 1001 sampleRepo) = List.replicate 1001 sampleRepo :=
    List.filter_eq_self.mpr (fun a _ => rfl)
  rw [hf, List.length_replicate, if_neg (by decide)]

/-- Claim C3, amended: provided at most 1000 intake candidates are
non-blacklisted (so the capacity-1000 replacement channel never fills),
the filter classifies each intake candidate exactly once: every
candidate whose clone URL is in the mapping contributes its mapped
external id to the returned removal list exactly once and is never
forwarded, and every other candidate is forwarded downstream exactly
once. -/
theorem removeBlackListed_classifies_once
    (listed : String → Option String) (intake : List Repository)
    (h : (intake.filter (fun r => (listed r.GitCloneURL).isNone)).length ≤
      tempChannelCapacity) :
    removeBlackListedFromRepositories listed intake =
      some (intake.filterMap (fun r => listed r.GitCloneURL),
            intake.filter (fun r => (listed r.GitCloneURL).isNone)) := by
  unfold removeBlackListedFromRepositories
  rw [goFilterLoop_characterization listed intake [] []
    (by simp [tempChannelCapacity])]
  simp [h]

/-- Claim C3, witness: a concrete two-candidate intake with `repoA`
blacklisted as `doc-42` is classified into removal list `["doc-42"]` and
forwarded list `[repoB]`. -/
theorem removeBlackListed_classifies_once_witness :
    removeBlackListedFromRepositories blacklistAB [repoA, repoB] =
      some (["doc-42"], [repoB]) :=
  (removeBlackListed_classifies_once blacklistAB [repoA, repoB]
    (by decide)).trans (by decide)

/-- Claim C10: the blacklist filter buffers forwarded candidates in a
fresh capacity-1000 channel with no concurrent receiver, so it returns
the removal list exactly when at most 1000 intake candidates are
non-blacklisted; with more, the send into the full replacement channel
blocks forever (`none`). -/
theorem removeBlackListed_termination_boundary :
    ∀ (listed : String → Option String) (intake : List Repository),
      removeBlackListedFromRepositories listed intake =
        (if (intake.filter (fun r => (listed r.GitCloneURL).isNone)).length ≤
            tempChannelCapacity
         then some (intake.filterMap (fun r => listed r.GitCloneURL),
                    intake.filter (fun r => (listed r.GitCloneURL).isNone))
         else none) := by
  intro listed intake
  unfold removeBlackListedFromRepositories
  rw [goFilterLoop_characterization listed intake [] []
    (by simp [tempChannelCapacity])]
  simp

/-- Claim C4: for a publisher with the unknown-IPA flag unset and a
successfully parsed manifest, whitelist validation succeeds exactly when
the whitelist code and the manifest's administration code are equal
after whitespace trimming under case-insensitive comparison; in
particular `"ABC123 "` matches `"abc123"`, while `"ABC123"` against
`"XYZ999"` fails with an error reporting both codes. -/
theorem validateFile_whitelist_match :
    (∀ (pa : PA) (p : PCParsed) (url : String), pa.UnknownIPA = false →
       (validateRemoteFile pa (Except.ok p) url = Except.ok () ↔
         specWhitelistMatch pa.CodiceIPA p.PublicCode.It.Riuso.CodiceIPA)) ∧
    validateFile { CodiceIPA := "ABC123 " }
      { PublicCode := { It := { Riuso := { CodiceIPA := "abc123" } } } } "u" =
      Except.ok () ∧
    validateFile { CodiceIPA := "ABC123" }
      { PublicCode := { It := { Riuso := { CodiceIPA := "XYZ999" } } } } "u" =
      Except.error
        "codiceIPA for: u is XYZ999, which differs from the one assigned to the org in the whitelist: ABC123" := by
  refine ⟨?_, rfl, rfl⟩
  intro pa p url _
  have hiff := eqFoldChars_eq_map (goTrimSpace pa.CodiceIPA).data
    (goTrimSpace p.PublicCode.It.Riuso.CodiceIPA).data
  show validateFile pa p url = Except.ok () ↔ _
  unfold validateFile goEqualFold specWhitelistMatch
  split_ifs with hc
  · simp [hiff.mp hc]
  · have hns : ¬ ((goTrimSpace pa.CodiceIPA).data.map Char.toLower =
        (goTrimSpace p.PublicCode.It.Riuso.CodiceIPA).data.map Char.toLower) :=
      fun hm => hc (hiff.mpr hm)
    simp [hns]

/-- Claim C4, witness: the equivalence applied to a concrete publisher
with the unknown-IPA flag unset. -/
theorem validateFile_whitelist_match_witness :
    validateRemoteFile { CodiceIPA := "ABC123 ", UnknownIPA := false }
        (Except.ok { PublicCode := { It := { Riuso := { CodiceIPA := "abc123" } } } })
        "u" = Except.ok () ↔
      specWhitelistMatch "ABC123 " "abc123" :=
  validateFile_whitelist_match.1 { CodiceIPA := "ABC123 ", UnknownIPA := false }
    { PublicCode := { It := { Riuso := { CodiceIPA := "abc123" } } } } "u" rfl

/-- Claim C5: when the owning publisher's unknown-IPA flag is set and
the manifest fetch succeeds, the worker skips whitelist validation
entirely and proceeds to cloning, activity computation and publication,
whatever the parse outcome or the manifest's administration code. -/
theorem ProcessRepo_unknownIPA_skips_validation :
    ∀ (r : Repository) (env : RepoEnv),
      r.Pa.UnknownIPA = true → env.fetch.code = 200 →
      env.fetch.transportErr = false →
      ProcessRepo r env =
        { validationAttempted := false, deadLetter := [],
          cloneAttempted := true, activityAttempted := true,
          publishAttempted := true } := by
  intro r env h1 h2 h3
  simp [ProcessRepo, h1, h2, h3]

/-- Claim C5, witness: a candidate of an unknown-IPA publisher whose
parsed administration code (`ZZZ999`) matches no whitelist entry is
still accepted and proceeds to clone and publication. -/
theorem ProcessRepo_unknownIPA_skips_validation_witness :
    ProcessRepo repoUnknown envMismatch =
      { validationAttempted := false, deadLetter := [],
        cloneAttempted := true, activityAttempted := true,
        publishAttempted := true } :=
  ProcessRepo_unknownIPA_skips_validation repoUnknown envMismatch rfl rfl rfl

/-- Claim C6: a candidate whose manifest fetch returns a non-200 status
or a transport error is dropped immediately: no validation, no
dead-letter entry, no clone, no activity computation, no publication. -/
theorem ProcessRepo_fetch_failure_stops :
    ∀ (r : Repository) (env : RepoEnv),
      env.fetch.code ≠ 200 ∨ env.fetch.transportErr = true →
      ProcessRepo r env =
        { validationAttempted := false, deadLetter := [],
          cloneAttempted := false, activityAttempted := false,
          publishAttempted := false } := by
  intro r env h
  rcases h with h | h
  · simp [ProcessRepo, h]
  · simp [ProcessRepo, h]

/-- Claim C6, witness: a 404 manifest fetch produces no validation, no
dead-letter entry, no clone, no activity and no publication. -/
theorem ProcessRepo_fetch_failure_stops_witness :
    ProcessRepo repoPlain env404 =
      { validationAttempted := false, deadLetter := [],
        cloneAttempted := false, activityAttempted := false,
        publishAttempted := false } :=
  ProcessRepo_fetch_failure_stops repoPlain env404 (Or.inl (by decide))

/-- Claim C7, counterexample: for a candidate failing validation the
dead-letter logger `logBadYamlToFile` is handed only the manifest URL —
the raw manifest content fetched for the candidate never reaches the
dead-letter log. -/
theorem ProcessRepo_dead_letter_lacks_content :
    (ProcessRepo repoBad envBad).deadLetter = ["https://h/bad/publiccode.yml"] ∧
    envBad.fetch.body ∉ (ProcessRepo repoBad envBad).deadLetter := by
  exact ⟨rfl, by decide⟩

/-- Claim C7, amended: every candidate that fails validation (parse
error or whitelist mismatch) gets a dead-letter entry keyed by its
manifest URL (the logger receives the URL, not the raw content), is
abandoned — no clone, no activity computation, no publication — and the
worker loop processes the remaining candidates unchanged. -/
theorem ProcessRepo_validation_failure_dead_letters :
    ∀ (r : Repository) (env : RepoEnv) (e : String)
      (pre post : List (Repository × RepoEnv)),
      r.Pa.UnknownIPA = false → env.fetch.code = 200 →
      env.fetch.transportErr = false →
      validateRemoteFile r.Pa env.parse r.FileRawURL = Except.error e →
      ProcessRepo r env =
        { validationAttempted := true, deadLetter := [r.FileRawURL],
          cloneAttempted := false, activityAttempted := false,
          publishAttempted := false } ∧
      ProcessRepositories (pre ++ (r, env) :: post) =
        ProcessRepositories pre ++
          ProcessRepo r env :: ProcessRepositories post := by
  intro r env e pre post h1 h2 h3 h4
  constructor
  · simp [ProcessRepo, h1, h2, h3, h4]
  · simp [ProcessRepositories]

/-- Claim C7, witness: a concrete unparsable manifest is dead-lettered
under its URL and abandoned, and a following candidate is still
processed. -/
theorem ProcessRepo_validation_failure_dead_letters_witness :
    ProcessRepo repoBad envBad =
      { validationAttempted := true,
        deadLetter := ["https://h/bad/publiccode.yml"],
        cloneAttempted := false, activityAttempted := false,
        publishAttempted := false } ∧
    ProcessRepositories [(repoBad, envBad), (repoPlain, env404)] =
      [ProcessRepo repoBad envBad, ProcessRepo repoPlain env404] := by
  have h := ProcessRepo_validation_failure_dead_letters repoBad envBad
    "invalid publiccode" [] [(repoPlain, env404)] rfl rfl rfl rfl
  exact ⟨h.1.trans (by decide), by simpa using h.2⟩

/-- Claim C8: the base URL handed to the manifest parser is computed
with `strings.TrimRight`, a cutset trim: on the raw URL
`https://h/code.publiccode.yml` it strips not only the configured
filename `publiccode.yml` but every trailing character drawn from the
filename's character set, yielding `https://h/` instead of the suffix
trim `https://h/code.`. -/
theorem remoteBaseURL_cutset_trim :
    remoteBaseURL "publiccode.yml" "https://h/code.publiccode.yml" =
      "https://h/" ∧
    "https://h/code." ++ "publiccode.yml" = "https://h/code.publiccode.yml" ∧
    "https://h/" ≠ "https://h/code." := by
  exact ⟨by decide, rfl, by decide⟩

/-- Claim C9, counterexample: the intake channel is created with
capacity 1000, so a producer's push onto it does block on channel
capacity once 1000 candidates are already pending (absent a concurrent
receiver). -/
theorem intake_send_blocks_at_capacity :
    chanSendBlocks intakeChannelCapacity 1000 = true := by decide

/-- Claim C9, amended: the intake channel between producer and blacklist
filter is bounded with capacity 1000: a producer pushing a candidate
blocks on channel capacity exactly when at least 1000 candidates are
already pending and none is concurrently received. -/
theorem intake_channel_bounded :
    ∀ pending : Nat,
      chanSendBlocks intakeChannelCapacity pending = true ↔ 1000 ≤ pending := by
  intro pending
  simp [chanSendBlocks, intakeChannelCapacity]
